import Mathlib

/-!
Shallow embedding of the RedBlue-Oracle feature pipeline
(src/features/extract_dataset.py, src/features/build_features.py,
src/modeling/train.py, src/api/app.py).

Timestamps are modelled as integer seconds on a naive local timeline
(pandas Timestamps carry no timezone here); a calendar date is the floor
of the timestamp by 86400, matching `Timestamp.date()`.  Python floats
carrying delays, minutes and feature values are modelled as rationals.
-/

namespace RedBlue

/-- `Timestamp.date()` as a day index: floor division of seconds by 86400. -/
def dateOf (t : Int) : Int := t.fdiv 86400

/-- The three day-shifted candidate absolute schedule timestamps built by
`convert_gtfs_time` in `extract_dataset.py` (and the identical inline code in
`app.py`) from a parsed `HH:MM:SS` schedule string and the observation time
`actual`: anchor minus one day, anchor, anchor plus one day, where the anchor
is on `actual`'s date shifted one day forward when `HH >= 24`. -/
def gtfsCandidates (h m s : Nat) (actual : Int) : List Int :=
  let days_add : Int := if 24 ≤ h then 1 else 0
  let h2 : Nat := if 24 ≤ h then h - 24 else h
  let base_time : Int := (dateOf actual + days_add) * 86400 + (h2 * 3600 + m * 60 + s : Nat)
  [base_time - 86400, base_time, base_time + 86400]

/-- One step of the candidate-selection loop (`if diff < best_diff`): `none`
plays the role of the initial `float('inf')` best difference; a candidate
replaces the current best exactly when its absolute difference to `actual` is
strictly smaller, so the earliest candidate wins ties. -/
def betterCand (actual : Int) (best : Option Int) (cand : Int) : Option Int :=
  match best with
  | none => some cand
  | some b => if (actual - cand).natAbs < (actual - b).natAbs then some cand else some b

/-- `convert_gtfs_time` from `extract_dataset.py`, on an already-parsed
`(h, m, s)` triple: resolve the schedule string against the observation time
by picking the candidate minimizing the absolute difference. -/
def convert_gtfs_time (h m s : Nat) (actual : Int) : Option Int :=
  (gtfsCandidates h m s actual).foldl (betterCand actual) none

/-- The identical inline candidate-selection code in
`app.py::get_latest_live_features` (lines 96-118), kept as its own
definition because it is a second copy in the source. -/
def serving_resolve (h m s : Nat) (actual : Int) : Option Int :=
  (gtfsCandidates h m s actual).foldl (betterCand actual) none

/-- `delay_minutes = (actual - scheduled).total_seconds() / 60.0`. -/
def delayMinutes (actual sched : Int) : ℚ := ((actual - sched : Int) : ℚ) / 60

/-- One joined row of the `vehicle_positions ⋈ stop_times ⋈ trips` query:
stop id, raw stored observation timestamp, and the scheduled arrival string
already split into `(h, m, s)` when present (`none` models a NULL join or a
string that fails to parse, both of which the source catches). -/
structure ObsRow where
  stop_id : String
  actual : Int
  sched : Option (Nat × Nat × Nat)

/-- Mean of a list of rationals, `sum(xs) / len(xs)`. -/
def meanQ (xs : List ℚ) : ℚ := xs.sum / (xs.length : ℚ)

/-! ### Offline extraction (`extract_dataset.py::extract_raw_data`) -/

/-- `merge_asof(..., direction='nearest', tolerance='60min')` for one left
row: the nearest snapshot timestamp overall (earlier snapshot wins ties, the
snapshots being sorted ascending), kept only when within `tol` seconds. -/
def merge_asof_nearest (tol : Nat) (obs : Int) (snaps : List Int) : Option Int :=
  match snaps.foldl (betterCand obs) none with
  | none => none
  | some t => if (obs - t).natAbs ≤ tol then some t else none

/-- The delay column of one extraction row, `extract_raw_data` lines 66-136:
shift the stored timestamp back 5 hours, resolve the schedule string with
`convert_gtfs_time`, drop the row when resolution fails or when no weather
snapshot lies within 60 minutes of the shifted timestamp, and otherwise emit
`delay_minutes = (shifted actual - scheduled) / 60`.  No plausibility filter
on the delay magnitude appears anywhere on this path. -/
def extract_row (snaps : List Int) (r : ObsRow) : Option ℚ :=
  match r.sched with
  | none => none
  | some (h, m, s) =>
    let shifted := r.actual - 18000
    match convert_gtfs_time h m s shifted with
    | none => none
    | some st =>
      match merge_asof_nearest 3600 shifted snaps with
      | none => none
      | some _ => some (delayMinutes shifted st)

/-- The `delay_minutes` column of the saved training dataset: every row that
survives the schedule resolution and the weather join contributes its delay. -/
def extracted_training_delays (rows : List ObsRow) (snaps : List Int) : List ℚ :=
  rows.filterMap (extract_row snaps)

/-!  ### Online serving (`app.py::get_latest_live_features`) -/

/-- The delay computed for one row of the recent-5 window in
`get_latest_live_features`: resolve the schedule against the *unshifted*
stored timestamp and divide by 60. -/
def serving_delay (h m s : Nat) (actual : Int) : Option ℚ :=
  match serving_resolve h m s actual with
  | none => none
  | some best => some (delayMinutes actual best)

/-- The `delays` list built by the serving loop over the recent-5 rows (which
arrive in descending timestamp order): rows with a schedule whose resolved
delay satisfies `abs(delay_minutes) < 300`, in row order. -/
def plausibleDelays (rows : List ObsRow) : List ℚ :=
  rows.filterMap (fun r =>
    match r.sched with
    | none => none
    | some (h, m, s) =>
      match serving_delay h m s r.actual with
      | none => none
      | some d => if |d| < 300 then some d else none)

/-- `congestion`: 0.0 unless `delays` is nonempty, then the mean of
`delays[:3]` when at least 3 are present, else the mean of all of them. -/
def serving_congestion (rows : List ObsRow) : ℚ :=
  let delays := plausibleDelays rows
  if delays = [] then 0
  else if 3 ≤ delays.length then meanQ (delays.take 3) else meanQ delays

/-- `upstream_delay`: 0.0 unless `delays` is nonempty, then the mean of
`delays[:2]` when at least 2 are present, else the mean of all of them. -/
def serving_upstream (rows : List ObsRow) : ℚ :=
  let delays := plausibleDelays rows
  if delays = [] then 0
  else if 2 ≤ delays.length then meanQ (delays.take 2) else meanQ delays

/-- `last_seen_at_station`: the first row of the descending-ordered window
whose stop id equals the requested stop. -/
def lastSeenAtStation (rows : List ObsRow) (stop : String) : Option Int :=
  (rows.find? (fun r => r.stop_id = stop)).map (·.actual)

/-- `headway_minutes`: 10.0 by default; otherwise the minutes elapsed from
the last sighting at the requested stop to `now`, capped at 120. -/
def serving_headway (now : Int) (rows : List ObsRow) (stop : String) : ℚ :=
  match lastSeenAtStation rows stop with
  | none => 10
  | some t => min (((now - t : Int) : ℚ) / 60) 120

/-! ### Training feature builder (`build_features.py::build_features`) -/

/-- `c.startswith(pat)` on Python strings, as char-list comparison. -/
def strStartsWith (c pat : String) : Bool := pat.data.isPrefixOf c.data

/-- `pat in c` on Python strings: some suffix of `c` starts with `pat`. -/
def strContains (c pat : String) : Bool :=
  (List.range (c.data.length + 1)).any (fun i => pat.data.isPrefixOf (c.data.drop i))

/-- The eight hand-listed training feature columns of `build_features.py`. -/
def base_feature_cols : List String :=
  ["hour_of_day", "day_of_week", "is_weekend", "is_rush_hour",
   "temp", "precip_mm", "wind_speed", "rolling_congestion_3_trains"]

/-- The feature-name list the training pipeline produces: the eight fixed
names plus every dataframe column whose name contains `route_id_` or
`direction_id_` as a substring (the one-hot columns `get_dummies` created).
`train.py` then fits on exactly these columns and writes them, in order, to
the feature-name file loaded by the API. -/
def training_feature_cols (rawCols : List String) : List String :=
  base_feature_cols ++
    rawCols.filter (fun c => strContains c "route_id_" || strContains c "direction_id_")

/-- Pandas `Series.shift(1)`: a missing value enters at the front and the
last element falls off. -/
def shift1 (xs : List (Option ℚ)) : List (Option ℚ) := (none :: xs).dropLast

/-- Pandas `Series.rolling(window=w, min_periods=minp).mean()`: at position
`i` the window holds the up to `w` entries ending at `i`; missing entries are
ignored, and the mean is emitted only when at least `minp` values remain. -/
def rollingMeanW (w minp : Nat) (xs : List (Option ℚ)) : List (Option ℚ) :=
  (List.range xs.length).map (fun i =>
    let window := ((xs.take (i + 1)).drop (i + 1 - w)).filterMap id
    if minp ≤ window.length then some (meanQ window) else none)

/-- `rolling_congestion_3_trains` for one stop's chronological delay series
(`build_features.py` lines 44-49): the grouped
`shift(1).rolling(window=3, min_periods=1).mean()` transform, then
`fillna(0)`. -/
def build_rolling_congestion (ds : List ℚ) : List ℚ :=
  (rollingMeanW 3 1 (shift1 (ds.map some))).map (fun o => o.getD 0)

/-! ### Feature vector assembler (`app.py::predict_delay`) -/

/-- The ten live-computed feature values entering `feature_dict`. -/
structure LiveFeatures where
  hour_of_day : ℚ
  day_of_week : ℚ
  is_weekend : ℚ
  is_rush_hour : ℚ
  temp : ℚ
  precip_mm : ℚ
  wind_speed : ℚ
  rolling_congestion_3_trains : ℚ
  headway_minutes : ℚ
  rolling_upstream_delay : ℚ

/-- `feature_dict` of `predict_delay`, keys in source order. -/
def feature_dict (f : LiveFeatures) : List (String × ℚ) :=
  [("hour_of_day", f.hour_of_day), ("day_of_week", f.day_of_week),
   ("is_weekend", f.is_weekend), ("is_rush_hour", f.is_rush_hour),
   ("temp", f.temp), ("precip_mm", f.precip_mm), ("wind_speed", f.wind_speed),
   ("rolling_congestion_3_trains", f.rolling_congestion_3_trains),
   ("headway_minutes", f.headway_minutes),
   ("rolling_upstream_delay", f.rolling_upstream_delay)]

/-- Python `f"{float(d)}"` for the small non-negative integers used as
direction ids. -/
def floatLabel (d : Nat) : String := toString d ++ ".0"

/-- Python dict lookup on the assembled `feature_dict`. -/
def dictLookup : List (String × ℚ) → String → Option ℚ
  | [], _ => none
  | (k, v) :: rest, c => if c = k then some v else dictLookup rest c

/-- `route_columns`: the trained columns whose name starts with `route_id_`. -/
def route_columns (cols : List String) : List String :=
  cols.filter (fun c => strStartsWith c "route_id_")

/-- `target_route` after the fallback check: the requested route's one-hot
name, replaced by the first trained route column when the requested one is
not among the trained route columns and at least one such column exists. -/
def targetRoute (cols : List String) (route_id : String) : String :=
  let t := "route_id_" ++ route_id
  let rcs := route_columns cols
  if t ∉ rcs ∧ rcs ≠ [] then rcs.headD t else t

/-- The value appended for one required column in the assembly loop of
`predict_delay`: the live value when the name is in `feature_dict`, else 1.0
for the target route or direction one-hot column, else 0.0 for any other
one-hot column, else the 0.0 numeric fallback. -/
def columnValue (dict : List (String × ℚ)) (troute tdir col : String) : ℚ :=
  match dictLookup dict col with
  | some v => v
  | none =>
    if col = troute then 1
    else if col = tdir then 1
    else if strStartsWith col "route_id_" || strStartsWith col "direction_id_" then 0
    else 0

/-- `input_array` as built by the `for col in feature_columns` append loop. -/
def build_input_array (cols : List String) (f : LiveFeatures)
    (route_id : String) (direction_id : Nat) : List ℚ :=
  let troute := targetRoute cols route_id
  let tdir := "direction_id_" ++ floatLabel direction_id
  cols.foldl (fun acc col => acc ++ [columnValue (feature_dict f) troute tdir col]) []

/-! ### Helper lemmas -/

theorem betterCand_foldl_some (a : Int) :
    ∀ (l : List Int) (b : Int), ∃ t, l.foldl (betterCand a) (some b) = some t ∧
      (t = b ∨ t ∈ l) ∧ (a - t).natAbs ≤ (a - b).natAbs ∧
      ∀ u ∈ l, (a - t).natAbs ≤ (a - u).natAbs := by
  intro l
  induction l with
  | nil => exact fun b => ⟨b, rfl, Or.inl rfl, le_refl _, by simp⟩
  | cons c l ih =>
    intro b
    simp only [List.foldl_cons]
    by_cases hc : (a - c).natAbs < (a - b).natAbs
    · obtain ⟨t, ht, hmem, hle, hall⟩ := ih c
      refine ⟨t, ?_, ?_, ?_, ?_⟩
      · simpa [betterCand, hc] using ht
      · rcases hmem with h | h
        · exact Or.inr (by simp [h])
        · exact Or.inr (by simp [h])
      · omega
      · intro u hu
        rcases List.mem_cons.mp hu with h | h
        · subst h; exact hle
        · exact hall u h
    · obtain ⟨t, ht, hmem, hle, hall⟩ := ih b
      refine ⟨t, ?_, ?_, ?_, ?_⟩
      · simpa [betterCand, hc] using ht
      · rcases hmem with h | h
        · exact Or.inl h
        · exact Or.inr (by simp [h])
      · exact hle
      · intro u hu
        rcases List.mem_cons.mp hu with h | h
        · subst h; omega
        · exact hall u h

theorem pickBest_spec (a c : Int) (l : List Int) :
    ∃ t, (c :: l).foldl (betterCand a) none = some t ∧ t ∈ c :: l ∧
      ∀ u ∈ c :: l, (a - t).natAbs ≤ (a - u).natAbs := by
  obtain ⟨t, ht, hmem, hle, hall⟩ := betterCand_foldl_some a l c
  refine ⟨t, ?_, ?_, ?_⟩
  · simpa [betterCand] using ht
  · rcases hmem with h | h
    · simp [h]
    · simp [h]
  · intro u hu
    rcases List.mem_cons.mp hu with h | h
    · subst h; exact hle
    · exact hall u h

theorem ne_of_route_dir (x y : String)
    (hx : strStartsWith x "route_id_" = true)
    (hy : strStartsWith y "direction_id_" = true) : x ≠ y := by
  intro he; subst he
  rw [strStartsWith, List.isPrefixOf_iff_prefix] at hx hy
  rcases List.prefix_or_prefix_of_prefix hx hy with h | h
  · exact absurd h (by decide)
  · exact absurd h (by decide)

theorem startsWith_append (pre rest : String) :
    strStartsWith (pre ++ rest) pre = true := by
  rw [strStartsWith, List.isPrefixOf_iff_prefix]
  exact ⟨rest.data, (String.data_append pre rest).symm⟩

theorem lookup_none_route (f : LiveFeatures) (c : String)
    (h : strStartsWith c "route_id_" = true) : dictLookup (feature_dict f) c = none := by
  have key : ∀ k : String, strStartsWith k "route_id_" = false → c ≠ k := by
    intro k hk he; subst he; rw [h] at hk; cases hk
  simp [feature_dict, dictLookup,
    key "hour_of_day" (by decide), key "day_of_week" (by decide),
    key "is_weekend" (by decide), key "is_rush_hour" (by decide),
    key "temp" (by decide), key "precip_mm" (by decide),
    key "wind_speed" (by decide), key "rolling_congestion_3_trains" (by decide),
    key "headway_minutes" (by decide), key "rolling_upstream_delay" (by decide)]

theorem lookup_none_dir (f : LiveFeatures) (c : String)
    (h : strStartsWith c "direction_id_" = true) : dictLookup (feature_dict f) c = none := by
  have key : ∀ k : String, strStartsWith k "direction_id_" = false → c ≠ k := by
    intro k hk he; subst he; rw [h] at hk; cases hk
  simp [feature_dict, dictLookup,
    key "hour_of_day" (by decide), key "day_of_week" (by decide),
    key "is_weekend" (by decide), key "is_rush_hour" (by decide),
    key "temp" (by decide), key "precip_mm" (by decide),
    key "wind_speed" (by decide), key "rolling_congestion_3_trains" (by decide),
    key "headway_minutes" (by decide), key "rolling_upstream_delay" (by decide)]

theorem find_max_of_sorted (stop : String) :
    ∀ (rows : List ObsRow) (r0 : ObsRow),
      rows.find? (fun r => r.stop_id = stop) = some r0 →
      List.Pairwise (fun a b : ObsRow => b.actual ≤ a.actual) rows →
      ∀ r ∈ rows, r.stop_id = stop → r.actual ≤ r0.actual := by
  intro rows
  induction rows with
  | nil => intro r0 h; simp at h
  | cons a l ih =>
    intro r0 hfind hpair r hr hstop
    rcases List.pairwise_cons.mp hpair with ⟨hhead, htail⟩
    by_cases hpa : a.stop_id = stop
    · rw [List.find?_cons_of_pos _ (by simpa using hpa)] at hfind
      obtain rfl : a = r0 := by injection hfind
      rcases List.mem_cons.mp hr with h | h
      · subst h; exact le_refl _
      · exact hhead r h
    · rw [List.find?_cons_of_neg _ (by simpa using hpa)] at hfind
      rcases List.mem_cons.mp hr with h | h
      · subst h; exact absurd hstop hpa
      · exact ih r0 hfind htail r h hstop

/-! ### Claims -/

/-- Claim C1: for every schedule time `HH:MM:SS` with `HH ∈ [0,47]` and every
reference timestamp, the GTFS normalizer returns the candidate among
\x7banchor − 1 day, anchor, anchor + 1 day\x7d minimizing the absolute distance to
the reference, and that result lies within 36 hours (129600 s) of the
reference; in particular schedule `25:10:00` against a reference of
2024-01-02T01:15:00 (epoch second 1704158100) resolves to
2024-01-02T01:10:00 (epoch second 1704157800), a delay of +5 minutes. -/
theorem claim_C1_normalizer :
    (∀ (h m s : Nat) (ref : Int), h ≤ 47 → m ≤ 59 → s ≤ 59 →
      ∃ t, convert_gtfs_time h m s ref = some t ∧
        t ∈ gtfsCandidates h m s ref ∧
        (∀ c ∈ gtfsCandidates h m s ref, (ref - t).natAbs ≤ (ref - c).natAbs) ∧
        (ref - t).natAbs ≤ 129600) ∧
    convert_gtfs_time 25 10 0 1704158100 = some 1704157800 ∧
    delayMinutes 1704158100 1704157800 = 5 := by
  refine ⟨?_, by decide, by norm_num [delayMinutes]⟩
  intro h m s ref hh hm hs
  set B : Int := (dateOf ref + if 24 ≤ h then 1 else 0) * 86400 +
    ((if 24 ≤ h then h - 24 else h) * 3600 + m * 60 + s : Nat) with hB
  have hg : gtfsCandidates h m s ref = [B - 86400, B, B + 86400] := rfl
  obtain ⟨t, ht, hmem, hall⟩ := pickBest_spec ref (B - 86400) [B, B + 86400]
  refine ⟨t, ?_, ?_, ?_, ?_⟩
  · rw [convert_gtfs_time, hg]; exact ht
  · rw [hg]; exact hmem
  · rw [hg]; exact hall
  · have h1 := hall (B - 86400) (by simp)
    have h2 := hall B (by simp)
    have h3 := hall (B + 86400) (by simp)
    have hdiv : dateOf ref = ref / 86400 := Int.fdiv_eq_ediv ref (by norm_num)
    have hmod := Int.ediv_add_emod ref 86400
    have hmn : 0 ≤ ref % 86400 := Int.emod_nonneg ref (by norm_num)
    have hmx : ref % 86400 < 86400 := Int.emod_lt_of_pos ref (by norm_num)
    rw [hdiv] at hB
    by_cases h24 : 24 ≤ h
    · rw [if_pos h24, if_pos h24] at hB
      omega
    · rw [if_neg h24, if_neg h24] at hB
      omega

/-- Witness for C1 at the concrete end-to-end scenario input. -/
theorem claim_C1_normalizer_witness :
    ∃ t, convert_gtfs_time 25 10 0 1704158100 = some t ∧
      t ∈ gtfsCandidates 25 10 0 1704158100 ∧
      (∀ c ∈ gtfsCandidates 25 10 0 1704158100,
        ((1704158100 : Int) - t).natAbs ≤ ((1704158100 : Int) - c).natAbs) ∧
      ((1704158100 : Int) - t).natAbs ≤ 129600 :=
  claim_C1_normalizer.1 25 10 0 1704158100 (by decide) (by decide) (by decide)

/-- Counterexample to C2 as stated: a joined row whose stored timestamp
(after the 5-hour shift) is 1970-01-01T00:00:00 and whose schedule string is
`12:00:00`, with a weather snapshot at the same instant, survives the whole
offline extraction and lands in the training data with a delay of 720
minutes — the offline path applies no 300-minute plausibility filter. -/
theorem claim_C2_counterexample :
    ∃ d, d ∈ extracted_training_delays [⟨"S", 18000, some (12, 0, 0)⟩] [0] ∧ 300 ≤ |d| := by
  refine ⟨720, ?_, by norm_num⟩
  have h1 : extracted_training_delays [⟨"S", 18000, some (12, 0, 0)⟩] [0]
      = [delayMinutes 0 (-43200)] := rfl
  have h2 : delayMinutes 0 (-43200) = 720 := by norm_num [delayMinutes]
  rw [h1, h2]
  simp

/-- Claim C2 (amended): every delay entering the online serving aggregation
has magnitude strictly below 300 minutes; the offline training extraction
applies no such filter (see the counterexample). -/
theorem claim_C2_serving_filter :
    ∀ (rows : List ObsRow) (d : ℚ), d ∈ plausibleDelays rows → |d| < 300 := by
  intro rows d hd
  rw [plausibleDelays, List.mem_filterMap] at hd
  obtain ⟨r, _, hr⟩ := hd
  rcases hs : r.sched with _ | ⟨⟨h, m, s⟩⟩
  · simp only [hs] at hr; exact Option.noConfusion hr
  · simp only [hs] at hr
    rcases hsd : serving_delay h m s r.actual with _ | d'
    · simp only [hsd] at hr; exact Option.noConfusion hr
    · simp only [hsd] at hr
      by_cases h300 : |d'| < 300
      · rw [if_pos h300] at hr
        obtain rfl : d' = d := by injection hr
        exact h300
      · rw [if_neg h300] at hr; cases hr

/-- Witness for the amended C2 at a concrete serving window. -/
theorem claim_C2_serving_filter_witness : |(5 : ℚ)| < 300 := by
  refine claim_C2_serving_filter [⟨"S", 300, some (0, 0, 0)⟩] 5 ?_
  have hres : serving_resolve 0 0 0 300 = some 0 := by decide
  have hd : delayMinutes 300 0 = 5 := by norm_num [delayMinutes]
  have habs : |delayMinutes 300 0| < 300 := by rw [hd]; norm_num
  have h1 : plausibleDelays [⟨"S", 300, some (0, 0, 0)⟩] = [delayMinutes 300 0] := by
    simp [plausibleDelays, serving_delay, hres, habs]
  rw [h1, hd]
  simp

/-- Claim C6: the training weather join matches each observation to the
nearest-in-time snapshot in either direction, only within a 60-minute
(3600 s) tolerance; an observation with no snapshot within tolerance is
dropped; in particular a snapshot at 12:00:00 (second 43200) does not match
an observation at 13:05:00 (second 47100). -/
theorem claim_C6_weather_join :
    (∀ (obs : Int) (snaps : List Int) (t : Int),
      merge_asof_nearest 3600 obs snaps = some t →
        t ∈ snaps ∧ (obs - t).natAbs ≤ 3600 ∧
        ∀ u ∈ snaps, (obs - t).natAbs ≤ (obs - u).natAbs) ∧
    (∀ (obs : Int) (snaps : List Int),
      (∀ u ∈ snaps, 3600 < (obs - u).natAbs) → merge_asof_nearest 3600 obs snaps = none) ∧
    merge_asof_nearest 3600 47100 [43200] = none := by
  refine ⟨?_, ?_, by decide⟩
  · intro obs snaps t ht
    cases snaps with
    | nil => simp [merge_asof_nearest] at ht
    | cons c l =>
      obtain ⟨t', ht', hmem, hall⟩ := pickBest_spec obs c l
      simp only [merge_asof_nearest, ht'] at ht
      by_cases htol : (obs - t').natAbs ≤ 3600
      · rw [if_pos htol] at ht
        obtain rfl : t' = t := by injection ht
        exact ⟨hmem, htol, hall⟩
      · rw [if_neg htol] at ht; cases ht
  · intro obs snaps hfar
    cases snaps with
    | nil => rfl
    | cons c l =>
      obtain ⟨t', ht', hmem, _⟩ := pickBest_spec obs c l
      have hgt := hfar t' hmem
      simp only [merge_asof_nearest, ht']
      rw [if_neg (by omega)]

/-- Witness for C6 at a concrete matched observation. -/
theorem claim_C6_weather_join_witness :
    (100 : Int) ∈ [(100 : Int)] ∧ ((0 : Int) - 100).natAbs ≤ 3600 ∧
      ∀ u ∈ [(100 : Int)], ((0 : Int) - 100).natAbs ≤ ((0 : Int) - u).natAbs :=
  claim_C6_weather_join.1 0 [100] 100 (by decide)

/-- Claim C7: with `D` the plausible delays of the recent same-route window
in descending-time order, serving congestion is the mean of the first 3
elements of `D` (all of `D` when fewer) and serving upstream delay the mean
of the first 2 (all of `D` when fewer). -/
theorem claim_C7_serving_means (rows : List ObsRow)
    (hne : plausibleDelays rows ≠ []) :
    serving_congestion rows = meanQ ((plausibleDelays rows).take 3) ∧
    serving_upstream rows = meanQ ((plausibleDelays rows).take 2) := by
  constructor
  · rw [serving_congestion]
    by_cases h3 : 3 ≤ (plausibleDelays rows).length
    · simp [hne, h3]
    · have he : (plausibleDelays rows).take 3 = plausibleDelays rows :=
        List.take_of_length_le (by omega)
      simp [hne, h3, he]
  · rw [serving_upstream]
    by_cases h2 : 2 ≤ (plausibleDelays rows).length
    · simp [hne, h2]
    · have he : (plausibleDelays rows).take 2 = plausibleDelays rows :=
        List.take_of_length_le (by omega)
      simp [hne, h2, he]

/-- Witness for C7 on a window holding a single plausible delay. -/
theorem claim_C7_serving_means_witness :
    serving_congestion [⟨"S", 600, some (0, 0, 0)⟩]
        = meanQ ((plausibleDelays [⟨"S", 600, some (0, 0, 0)⟩]).take 3) ∧
    serving_upstream [⟨"S", 600, some (0, 0, 0)⟩]
        = meanQ ((plausibleDelays [⟨"S", 600, some (0, 0, 0)⟩]).take 2) := by
  refine claim_C7_serving_means [⟨"S", 600, some (0, 0, 0)⟩] ?_
  have hres : serving_resolve 0 0 0 600 = some 0 := by decide
  have hd : delayMinutes 600 0 = 10 := by norm_num [delayMinutes]
  have habs : |delayMinutes 600 0| < 300 := by rw [hd]; norm_num
  simp [plausibleDelays, serving_delay, hres, habs]

/-- Claim C8: the serving headway is the minutes from the most recent
observation at the exact requested stop in the window to now, capped at 120
(the window being in descending time order, the first matching row carries
the greatest timestamp among observations at that stop); and on a route with
no stopped observations at all, every context feature takes its default:
headway 10.0, congestion 0.0, upstream delay 0.0. -/
theorem claim_C8_headway :
    (∀ (now : Int) (rows : List ObsRow) (stop : String) (t : Int),
      lastSeenAtStation rows stop = some t →
        serving_headway now rows stop = min (((now - t : Int) : ℚ) / 60) 120 ∧
        (List.Pairwise (fun a b : ObsRow => b.actual ≤ a.actual) rows →
          ∀ r ∈ rows, r.stop_id = stop → r.actual ≤ t)) ∧
    ∀ (now : Int) (stop : String),
      serving_headway now [] stop = 10 ∧ serving_congestion [] = 0 ∧ serving_upstream [] = 0 := by
  constructor
  · intro now rows stop t ht
    constructor
    · rw [serving_headway, ht]
    · intro hpair r hr hstop
      obtain ⟨r0, hr0, hact⟩ := Option.map_eq_some'.mp ht
      have := find_max_of_sorted stop rows r0 hr0 hpair r hr hstop
      omega
  · intro now stop
    refine ⟨rfl, rfl, rfl⟩

/-- Witness for C8 on a one-row window at the requested stop. -/
theorem claim_C8_headway_witness :
    serving_headway 1200 [⟨"S", 600, some (0, 0, 0)⟩] "S"
        = min ((((1200 : Int) - 600 : Int) : ℚ) / 60) 120 ∧
    (List.Pairwise (fun a b : ObsRow => b.actual ≤ a.actual) [⟨"S", 600, some (0, 0, 0)⟩] →
      ∀ r ∈ [(⟨"S", 600, some (0, 0, 0)⟩ : ObsRow)], r.stop_id = "S" → r.actual ≤ 600) :=
  claim_C8_headway.1 1200 [⟨"S", 600, some (0, 0, 0)⟩] "S" 600 (by decide)

/-- Claim C10: training and serving invoke the same 3-candidate schedule
resolution and delay formula, except that the training extraction first
shifts the stored timestamp back 5 hours (18000 s): for every observation
and schedule triple, whenever the weather join succeeds the training row's
delay equals the serving delay evaluated at the shifted timestamp. -/
theorem claim_C10_train_serve :
    (∀ (h m s : Nat) (a : Int), convert_gtfs_time h m s a = serving_resolve h m s a) ∧
    ∀ (h m s : Nat) (obs : Int) (stop : String) (snaps : List Int) (w : Int),
      merge_asof_nearest 3600 (obs - 18000) snaps = some w →
      extract_row snaps ⟨stop, obs, some (h, m, s)⟩ = serving_delay h m s (obs - 18000) := by
  refine ⟨fun _ _ _ _ => rfl, ?_⟩
  intro h m s obs stop snaps w hw
  have hsr : serving_resolve h m s (obs - 18000) = convert_gtfs_time h m s (obs - 18000) := rfl
  rcases hc : convert_gtfs_time h m s (obs - 18000) with _ | st
  · simp [extract_row, serving_delay, hsr, hc]
  · simp [extract_row, serving_delay, hsr, hc, hw]

/-- Witness for C10 at a concrete observation with a matching snapshot. -/
theorem claim_C10_train_serve_witness :
    extract_row [0] ⟨"S", 18000, some (0, 0, 0)⟩ = serving_delay 0 0 0 (18000 - 18000) :=
  claim_C10_train_serve.2 0 0 0 18000 "S" [0] 0 (by decide)

theorem foldl_append_singleton {α β : Type} (g : α → β) (l : List α) :
    ∀ acc : List β, l.foldl (fun acc c => acc ++ [g c]) acc = acc ++ l.map g := by
  induction l with
  | nil => simp
  | cons c l ih => intro acc; simp [ih]

theorem build_input_array_eq_map (cols : List String) (f : LiveFeatures)
    (route : String) (d : Nat) :
    build_input_array cols f route d =
      cols.map (columnValue (feature_dict f) (targetRoute cols route)
        ("direction_id_" ++ floatLabel d)) := by
  rw [build_input_array]
  simpa using foldl_append_singleton
    (columnValue (feature_dict f) (targetRoute cols route) ("direction_id_" ++ floatLabel d))
    cols []

theorem input_array_getD (cols : List String) (f : LiveFeatures)
    (route : String) (d : Nat) (i : Nat) (hi : i < cols.length) :
    (build_input_array cols f route d).getD i 0 =
      columnValue (feature_dict f) (targetRoute cols route)
        ("direction_id_" ++ floatLabel d) (cols.getD i "") := by
  rw [build_input_array_eq_map, List.getD_eq_getElem?_getD, List.getElem?_map,
    List.getD_eq_getElem?_getD, List.getElem?_eq_getElem hi]
  simp

/-- Claim C3: for every request the assembled vector has exactly the length
of the trained feature-name list, and its entry at each position is the
value assigned to the trained column at that same position. -/
theorem claim_C3_vector_shape (cols : List String) (f : LiveFeatures)
    (route : String) (d : Nat) :
    (build_input_array cols f route d).length = cols.length ∧
    ∀ i : Nat, i < cols.length →
      (build_input_array cols f route d).getD i 0 =
        columnValue (feature_dict f) (targetRoute cols route)
          ("direction_id_" ++ floatLabel d) (cols.getD i "") := by
  constructor
  · rw [build_input_array_eq_map, List.length_map]
  · exact fun i hi => input_array_getD cols f route d i hi

/-- Witness for C3 on a concrete column list. -/
theorem claim_C3_vector_shape_witness :
    (build_input_array ["temp", "route_id_Blue"] ⟨1, 2, 3, 4, 5, 6, 7, 8, 9, 10⟩
        "Blue" 0).length = (["temp", "route_id_Blue"] : List String).length ∧
    ∀ i : Nat, i < (["temp", "route_id_Blue"] : List String).length →
      (build_input_array ["temp", "route_id_Blue"] ⟨1, 2, 3, 4, 5, 6, 7, 8, 9, 10⟩
          "Blue" 0).getD i 0 =
        columnValue (feature_dict ⟨1, 2, 3, 4, 5, 6, 7, 8, 9, 10⟩)
          (targetRoute ["temp", "route_id_Blue"] "Blue")
          ("direction_id_" ++ floatLabel 0) ((["temp", "route_id_Blue"] : List String).getD i "") :=
  claim_C3_vector_shape ["temp", "route_id_Blue"] ⟨1, 2, 3, 4, 5, 6, 7, 8, 9, 10⟩ "Blue" 0

/-- Claim C4: when the requested route has no one-hot column among the
trained columns but at least one route one-hot column exists, the assembler
writes 1.0 at the first route one-hot column's position, and the requested
direction's one-hot column still receives 1.0. -/
theorem claim_C4_fallback (cols : List String) (f : LiveFeatures)
    (route : String) (d : Nat) (c0 : String)
    (hhead : (route_columns cols).head? = some c0)
    (hmiss : ("route_id_" ++ route) ∉ route_columns cols) :
    (∀ i, i < cols.length → cols.getD i "" = c0 →
      (build_input_array cols f route d).getD i 0 = 1) ∧
    (∀ i, i < cols.length → cols.getD i "" = "direction_id_" ++ floatLabel d →
      (build_input_array cols f route d).getD i 0 = 1) := by
  have hne : route_columns cols ≠ [] := by
    intro h; rw [h] at hhead; exact Option.noConfusion hhead
  have hc0mem : c0 ∈ route_columns cols := by
    cases hrc : route_columns cols with
    | nil => exact absurd hrc hne
    | cons a l =>
      rw [hrc] at hhead
      obtain rfl : a = c0 := by injection hhead
      simp
  have hc0route : strStartsWith c0 "route_id_" = true :=
    (List.mem_filter.mp hc0mem).2
  have htroute : targetRoute cols route = c0 := by
    rw [targetRoute]
    rw [if_pos ⟨hmiss, hne⟩]
    cases hrc : route_columns cols with
    | nil => exact absurd hrc hne
    | cons a l =>
      rw [hrc] at hhead
      obtain rfl : a = c0 := by injection hhead
      rfl
  constructor
  · intro i hi hcol
    rw [input_array_getD cols f route d i hi, hcol, htroute, columnValue,
      lookup_none_route f c0 hc0route]
    simp
  · intro i hi hcol
    have hdirpre : strStartsWith ("direction_id_" ++ floatLabel d) "direction_id_" = true :=
      startsWith_append "direction_id_" (floatLabel d)
    have hnetr : ("direction_id_" ++ floatLabel d) ≠ c0 :=
      (ne_of_route_dir c0 ("direction_id_" ++ floatLabel d) hc0route hdirpre).symm
    rw [input_array_getD cols f route d i hi, hcol, htroute, columnValue,
      lookup_none_dir f ("direction_id_" ++ floatLabel d) hdirpre]
    simp [hnetr]

/-- Witness for C4: an untrained route falls back onto the first trained
route column while the requested direction column is still set. -/
theorem claim_C4_fallback_witness :
    (∀ i, i < (["temp", "route_id_Blue", "direction_id_1.0"] : List String).length →
      (["temp", "route_id_Blue", "direction_id_1.0"] : List String).getD i "" = "route_id_Blue" →
      (build_input_array ["temp", "route_id_Blue", "direction_id_1.0"]
        ⟨1, 2, 3, 4, 5, 6, 7, 8, 9, 10⟩ "Green" 1).getD i 0 = 1) ∧
    (∀ i, i < (["temp", "route_id_Blue", "direction_id_1.0"] : List String).length →
      (["temp", "route_id_Blue", "direction_id_1.0"] : List String).getD i ""
          = "direction_id_" ++ floatLabel 1 →
      (build_input_array ["temp", "route_id_Blue", "direction_id_1.0"]
        ⟨1, 2, 3, 4, 5, 6, 7, 8, 9, 10⟩ "Green" 1).getD i 0 = 1) :=
  claim_C4_fallback ["temp", "route_id_Blue", "direction_id_1.0"]
    ⟨1, 2, 3, 4, 5, 6, 7, 8, 9, 10⟩ "Green" 1 "route_id_Blue" (by decide) (by decide)

theorem lookup_agree (f : LiveFeatures) (h2 u2 : ℚ) (c : String)
    (hc1 : c ≠ "headway_minutes") (hc2 : c ≠ "rolling_upstream_delay") :
    dictLookup (feature_dict f) c =
      dictLookup (feature_dict
        { f with headway_minutes := h2, rolling_upstream_delay := u2 }) c := by
  simp [feature_dict, dictLookup, hc1, hc2]

/-- Claim C9: the training pipeline's feature-name list can never contain
`headway_minutes` or `rolling_upstream_delay` (the builder only emits its
eight fixed names plus one-hot columns whose names contain `route_id_` or
`direction_id_`), and consequently, over any column list drawn from those
shapes, the assembled model input vector is unchanged when the live headway
and upstream-delay values change: they cannot affect the prediction. -/
theorem claim_C9_headway_unused :
    (∀ rawCols : List String,
      "headway_minutes" ∉ training_feature_cols rawCols ∧
      "rolling_upstream_delay" ∉ training_feature_cols rawCols) ∧
    ∀ (cols : List String) (f : LiveFeatures) (h2 u2 : ℚ) (route : String) (d : Nat),
      (∀ c ∈ cols, c ∈ base_feature_cols ∨
        strContains c "route_id_" = true ∨ strContains c "direction_id_" = true) →
      build_input_array cols f route d =
        build_input_array cols
          { f with headway_minutes := h2, rolling_upstream_delay := u2 } route d := by
  constructor
  · intro rawCols
    constructor
    · intro hmem
      rw [training_feature_cols, List.mem_append] at hmem
      rcases hmem with h | h
      · exact absurd h (by decide)
      · exact absurd (List.mem_filter.mp h).2 (by decide)
    · intro hmem
      rw [training_feature_cols, List.mem_append] at hmem
      rcases hmem with h | h
      · exact absurd h (by decide)
      · exact absurd (List.mem_filter.mp h).2 (by decide)
  · intro cols f h2 u2 route d hcols
    rw [build_input_array_eq_map, build_input_array_eq_map]
    apply List.map_congr_left
    intro c hc
    have hne1 : c ≠ "headway_minutes" := by
      intro he; subst he
      rcases hcols _ hc with h | h | h
      · exact absurd h (by decide)
      · exact absurd h (by decide)
      · exact absurd h (by decide)
    have hne2 : c ≠ "rolling_upstream_delay" := by
      intro he; subst he
      rcases hcols _ hc with h | h | h
      · exact absurd h (by decide)
      · exact absurd h (by decide)
      · exact absurd h (by decide)
    rw [columnValue, columnValue, lookup_agree f h2 u2 c hne1 hne2]

/-- Witness for C9 on a concrete trained column list. -/
theorem claim_C9_headway_unused_witness :
    build_input_array ["temp", "route_id_Blue"] ⟨1, 2, 3, 4, 5, 6, 7, 8, 9, 10⟩ "Blue" 0 =
      build_input_array ["temp", "route_id_Blue"]
        { (⟨1, 2, 3, 4, 5, 6, 7, 8, 9, 10⟩ : LiveFeatures) with
            headway_minutes := 77, rolling_upstream_delay := 88 } "Blue" 0 :=
  claim_C9_headway_unused.2 ["temp", "route_id_Blue"] ⟨1, 2, 3, 4, 5, 6, 7, 8, 9, 10⟩
    77 88 "Blue" 0 (by decide)

theorem filterMap_id_map_some (l : List ℚ) : List.filterMap id (l.map some) = l := by
  simp [List.filterMap_map, Function.comp]

theorem window_eq (ds : List ℚ) (i : Nat) (hi : i < ds.length) :
    (((shift1 (ds.map some)).take (i + 1)).drop (i + 1 - 3)).filterMap id =
      (ds.take i).drop (i - 3) := by
  have hxs : shift1 (ds.map some) = (none :: ds.map some).take ds.length := by
    rw [shift1, List.dropLast_eq_take]
    simp
  rw [hxs, List.take_take]
  have hmin : min (i + 1) ds.length = i + 1 := by omega
  rw [hmin, List.take_succ_cons]
  by_cases h3 : 3 ≤ i
  · have e1 : i + 1 - 3 = (i - 3) + 1 := by omega
    rw [e1, List.drop_succ_cons, ← List.map_take, ← List.map_drop, filterMap_id_map_some]
  · have e1 : i + 1 - 3 = 0 := by omega
    have e2 : i - 3 = 0 := by omega
    rw [e1, e2, List.drop_zero, List.drop_zero, List.filterMap_cons_none rfl,
      ← List.map_take, filterMap_id_map_some]

/-- Claim C5: in the training feature builder, the rolling congestion value
at chronological position `i` of a stop's delay series is the mean of the
previous up-to-3 delays at that stop (current row excluded, at least one
sample required), and the first-ever observation at a stop gets exactly 0. -/
theorem claim_C5_rolling (ds : List ℚ) (i : Nat) (hi : i < ds.length) :
    (build_rolling_congestion ds).getD i 0 =
      if i = 0 then 0 else meanQ ((ds.take i).drop (i - 3)) := by
  have hlen : (shift1 (ds.map some)).length = ds.length := by
    simp [shift1]
  rw [build_rolling_congestion, rollingMeanW, List.map_map, List.getD_eq_getElem?_getD,
    List.getElem?_map, List.getElem?_range (by rw [hlen]; exact hi)]
  simp only [Option.map_some', Function.comp_apply, Option.getD_some]
  rw [window_eq ds i hi]
  by_cases h0 : i = 0
  · subst h0; simp
  · have hlw : 1 ≤ ((ds.take i).drop (i - 3)).length := by
      rw [List.length_drop, List.length_take]; omega
    rw [if_pos hlw, Option.getD_some, if_neg h0]

/-- Witness for C5 on a concrete four-delay series. -/
theorem claim_C5_rolling_witness :
    (build_rolling_congestion [2, 4, 6, 8]).getD 3 0 =
      if (3 : Nat) = 0 then 0 else
        meanQ ((([2, 4, 6, 8] : List ℚ).take 3).drop (3 - 3)) :=
  claim_C5_rolling [2, 4, 6, 8] 3 (by simp)

end RedBlue
